/-
Formal verification development for the EngEmil STM32 bootloader core
(bootloader.c, crc32.c, flash_ops.c, usb_dfu.c).

The C sources are shallowly embedded: machine integers become Nat with
explicit `% 2 ^ 32` where 32-bit overflow matters, flash/RAM memory becomes
a byte-addressed function `Nat → Nat`, and the module-scope DFU context
becomes an explicit record threaded through the handler functions.
-/
import Mathlib

/-! ### Compile-time constants (config.h, usb_dfu.h) -/

def FLASH_BASE_ADDRESS : Nat := 0x08000000

def FLASH_TOTAL_SIZE : Nat := 128 * 1024

def FLASH_PAGE_SIZE : Nat := 2048

def APP_BASE : Nat := 0x08004000

def APP_MAX_SIZE : Nat := 112 * 1024

def FLASH_END : Nat := FLASH_BASE_ADDRESS + FLASH_TOTAL_SIZE

def APP_HEADER_MAGIC : Nat := 0xDEADBEEF

def APP_VECTOR_TABLE_OFFSET : Nat := 0x100

def USB_DEFAULT_VID : Nat := 0x0483

def USB_DEFAULT_PID : Nat := 0xDF11

def DFU_XFER_SIZE : Nat := 1024

def USB_PACKET_SIZE : Nat := 64

/-- Modulus of 32-bit unsigned arithmetic (`uint32_t` / `size_t` on this MCU). -/
def UINT32_MOD : Nat := 2 ^ 32

/-! ### Byte-addressed memory

Flash and RAM are modelled as a total function from byte addresses to byte
values.  Multi-byte loads are little-endian, as on the Cortex-M0+ target. -/

abbrev Mem : Type := Nat → Nat

/-- Little-endian 32-bit load (semantics of reading a packed `uint32_t`). -/
def read32 (m : Mem) (a : Nat) : Nat :=
  m a + 2 ^ 8 * m (a + 1) + 2 ^ 16 * m (a + 2) + 2 ^ 24 * m (a + 3)

/-- Little-endian 16-bit load (semantics of reading a packed `uint16_t`). -/
def read16 (m : Mem) (a : Nat) : Nat :=
  m a + 2 ^ 8 * m (a + 1)

/-- The `n` bytes stored at addresses `a, a+1, …, a+n-1`. -/
def readBytes (m : Mem) (a n : Nat) : List Nat :=
  (List.range n).map (fun i => m (a + i))

/-! ### CRC32 engine (crc32.c)

Reflected table-driven CRC32.  All intermediate values stay below `2 ^ 32`
because the update only shifts right and xors 32-bit quantities, so no
explicit modulus is required. -/

def CRC32_POLYNOMIAL : Nat := 0xEDB88320

/-- One iteration of the inner loop of `crc32_init_table`. -/
def crc32_table_step (crc : Nat) : Nat :=
  if crc &&& 1 ≠ 0 then (crc >>> 1) ^^^ CRC32_POLYNOMIAL else crc >>> 1

/-- Entry `i` of the 256-entry lookup table built by `crc32_init_table`
(eight inner iterations starting from `i`). -/
def crc32_table_entry (i : Nat) : Nat :=
  (List.range 8).foldl (fun crc _ => crc32_table_step crc) i

/-- `crc32_init` returns the initial accumulator `0xFFFFFFFF`
(the table initialization it also performs is idempotent and pure here). -/
def crc32_init : Nat := 0xFFFFFFFF

/-- `crc32_update`: table-driven accumulation over a byte buffer.  The C
guard `data == NULL || len == 0` returns `crc` unchanged, which coincides
with folding over the empty list. -/
def crc32_update (crc : Nat) (data : List Nat) : Nat :=
  data.foldl (fun c b => (c >>> 8) ^^^ crc32_table_entry ((c ^^^ b) &&& 0xFF)) crc

/-- `crc32_finalize`: final xor with `0xFFFFFFFF`. -/
def crc32_finalize (crc : Nat) : Nat := crc ^^^ 0xFFFFFFFF

/-- `crc32_calculate`: one-shot convenience wrapper. -/
def crc32_calculate (data : List Nat) : Nat :=
  crc32_finalize (crc32_update crc32_init data)

/-- `bootloader_validate_app`, translated with its early returns.  The header
fields are the packed little-endian words at `APP_BASE` (`magic` at offset 0,
`size` at offset 8, `crc32` at offset 12). -/
def bootloader_validate_app (m : Mem) : Bool :=
  if read32 m APP_BASE ≠ APP_HEADER_MAGIC then false
  else if read32 m (APP_BASE + 8) = 0 ∨ APP_MAX_SIZE < read32 m (APP_BASE + 8) then false
  else if crc32_calculate
      (readBytes m (APP_BASE + APP_VECTOR_TABLE_OFFSET) (read32 m (APP_BASE + 8)))
      ≠ read32 m (APP_BASE + 12) then false
  else true

/-! ### Flash operations (flash_ops.c)

`flash_is_app_region` receives `uint32_t addr` and `size_t len`; both are
32-bit on this target, so the sum `addr + len` is computed modulo `2 ^ 32`.
`flash_write` is modelled on its success path: a `flash_write_doubleword`
whose wait-ready and read-back verification succeed is exactly the
byte-granular store of its two little-endian words. -/

def flash_is_app_region (addr len : Nat) : Bool :=
  if addr < APP_BASE ∨ FLASH_END ≤ addr then false
  else if FLASH_END < (addr + len) % UINT32_MOD then false
  else if addr < APP_BASE then false
  else true

/-- Byte-granular semantics of a 32-bit little-endian store. -/
def store32 (m : Mem) (a w : Nat) : Mem :=
  fun x => if a ≤ x ∧ x < a + 4 then (w >>> (8 * (x - a))) &&& 0xFF else m x

/-- `flash_write_doubleword` (success path): stores `word1` at `addr` and
`word2` at `addr + 4`. -/
def flash_write_doubleword (m : Mem) (addr word1 word2 : Nat) : Mem :=
  store32 (store32 m addr word1) (addr + 4) word2

/-- The partial-word loops of `flash_write`: start from `0xFFFFFFFF` (the
erased value) and patch in the available bytes
(`word &= ~(0xFF << 8j); word |= data[i+j] << 8j`). -/
def pad_word (bs : List Nat) : Nat :=
  (List.range bs.length).foldl
    (fun w j => (w &&& (0xFFFFFFFF ^^^ (0xFF <<< (8 * j)))) ||| ((bs.getD j 0) <<< (8 * j)))
    0xFFFFFFFF

/-- The first word built by an iteration of `flash_write`, from the data
suffix `d` still to be written (`d = data[i..]`, so `i + 4 ≤ len` becomes
`4 ≤ d.length`). -/
def flash_write_word1 (d : List Nat) : Nat :=
  if 4 ≤ d.length then
    (d.getD 0 0) <<< 0 ||| (d.getD 1 0) <<< 8 ||| (d.getD 2 0) <<< 16 ||| (d.getD 3 0) <<< 24
  else pad_word (d.take 4)

/-- The second word built by an iteration of `flash_write`. -/
def flash_write_word2 (d : List Nat) : Nat :=
  if 8 ≤ d.length then
    (d.getD 4 0) <<< 0 ||| (d.getD 5 0) <<< 8 ||| (d.getD 6 0) <<< 16 ||| (d.getD 7 0) <<< 24
  else if 4 < d.length then pad_word (d.drop 4)
  else 0xFFFFFFFF

/-- The double-word loop of `flash_write` (`for i = 0; i < len; i += 8`),
expressed as recursion over the remaining data suffix. -/
def flash_write_chunks (m : Mem) (addr : Nat) (data : List Nat) : Mem :=
  if data = [] then m
  else
    flash_write_chunks
      (flash_write_doubleword m addr (flash_write_word1 data) (flash_write_word2 data))
      (addr + 8) (data.drop 8)
termination_by data.length
decreasing_by
  simp only [List.length_drop]
  have hp : 0 < data.length := List.length_pos.mpr (by assumption)
  omega

/-- `flash_write`: rejects an empty buffer with `ERR_INVALID_PARAM` (-1),
otherwise runs the double-word loop (success path). -/
def flash_write (m : Mem) (addr : Nat) (data : List Nat) : Except Int Mem :=
  if data = [] then Except.error (-1) else Except.ok (flash_write_chunks m addr data)

/-- Value of a 32-bit word with the given little-endian bytes (used to state
the word-construction lemmas). -/
def leWord (b0 b1 b2 b3 : Nat) : Nat :=
  b0 + 2 ^ 8 * b1 + 2 ^ 16 * b2 + 2 ^ 24 * b3

/-- Byte `k` of the 8-byte double-word image of a data suffix `d`: a data
byte below `d.length`, the erased value `0xFF` beyond it. -/
def padByte (d : List Nat) (k : Nat) : Nat :=
  if k < d.length then d.getD k 0 else 0xFF

/-! ### DFU context and state machine (usb_dfu.c)

The module-scope `dfu_ctx` struct becomes an explicit record.  The USB stack
and the flash peripheral are external: host-supplied setup-packet fields and
payload bytes are parameters of the handler functions, and the outcomes of
the flash calls made by `usb_dfu_process` are supplied by a `FlashEnv`
oracle (success or failure of each call is hardware nondeterminism). -/

def DFU_STATE_DFU_IDLE : Nat := 2

def DFU_STATE_DFU_DNLOAD_SYNC : Nat := 3

def DFU_STATE_DFU_DNBUSY : Nat := 4

def DFU_STATE_DFU_DNLOAD_IDLE : Nat := 5

def DFU_STATE_DFU_MANIFEST_SYNC : Nat := 6

def DFU_STATE_DFU_MANIFEST : Nat := 7

def DFU_STATE_DFU_ERROR : Nat := 10

def DFU_STATUS_OK : Nat := 0x00

def DFU_STATUS_ERR_WRITE : Nat := 0x03

def DFU_STATUS_ERR_ERASE : Nat := 0x04

def DFU_STATUS_ERR_PROG : Nat := 0x06

def DFU_STATUS_ERR_ADDRESS : Nat := 0x08

def DFU_STATUS_ERR_STALLEDPKT : Nat := 0x0F

def DFUSE_CMD_SET_ADDRESS : Nat := 0x21

def DFUSE_CMD_ERASE : Nat := 0x41

structure DfuCtx where
  state : Nat
  status : Nat
  current_address : Nat
  target_address : Nat
  block_num : Nat
  buffer : List Nat
  buffer_len : Nat
  download_complete : Bool
  erase_done : Bool
  poll_timeout : Nat
deriving DecidableEq

/-- Outcomes of the flash-peripheral calls issued during one
`usb_dfu_process` invocation (in call order: first `flash_unlock`, the
`flash_erase_pages`, the second `flash_unlock`, the `flash_write`). -/
structure FlashEnv where
  unlock1_ok : Bool
  erase_ok : Bool
  unlock2_ok : Bool
  write_ok : Bool
deriving DecidableEq

/-- `usb_dfu_init`: the DFU-context part (descriptor patching is modelled
separately).  The buffer of the static C struct is zero-initialized. -/
def usb_dfu_init_ctx : DfuCtx :=
  { state := DFU_STATE_DFU_IDLE
    status := DFU_STATUS_OK
    current_address := APP_BASE
    target_address := APP_BASE
    block_num := 0
    buffer := List.replicate DFU_XFER_SIZE 0
    buffer_len := 0
    download_complete := false
    erase_done := false
    poll_timeout := 0 }

/-- `dfu_dnload_handler`.  `data` is the host payload that the armed
data phase stores into `dfu_ctx.buffer`. -/
def dfu_dnload_handler (c : DfuCtx) (wValue wLength : Nat) (data : List Nat) : DfuCtx :=
  if c.state ≠ DFU_STATE_DFU_IDLE ∧ c.state ≠ DFU_STATE_DFU_DNLOAD_IDLE then
    { c with status := DFU_STATUS_ERR_STALLEDPKT, state := DFU_STATE_DFU_ERROR }
  else if wLength = 0 then
    { c with state := DFU_STATE_DFU_MANIFEST_SYNC, download_complete := true }
  else if DFU_XFER_SIZE < wLength then
    { c with status := DFU_STATUS_ERR_STALLEDPKT, state := DFU_STATE_DFU_ERROR }
  else if wValue = 0 then
    { c with block_num := 0xFFFF, buffer_len := wLength,
             state := DFU_STATE_DFU_DNLOAD_SYNC, buffer := data }
  else
    { c with block_num := wValue, buffer_len := wLength,
             state := DFU_STATE_DFU_DNLOAD_SYNC, buffer := data }

/-- `dfu_getstatus_handler`: drives the state machine and returns the
6-byte status block (the `(uint8_t)` casts become `% 2 ^ 8`). -/
def dfu_getstatus_handler (c : DfuCtx) : DfuCtx × List Nat :=
  let c' :=
    if c.state = DFU_STATE_DFU_DNLOAD_SYNC then
      { c with poll_timeout := if c.block_num = 0xFFFF then 2000 else 10,
               state := DFU_STATE_DFU_DNBUSY }
    else if c.state = DFU_STATE_DFU_DNBUSY then
      if c.buffer_len = 0 then
        if c.status = DFU_STATUS_OK then { c with state := DFU_STATE_DFU_DNLOAD_IDLE }
        else { c with state := DFU_STATE_DFU_ERROR }
      else c
    else if c.state = DFU_STATE_DFU_MANIFEST_SYNC then
      { c with state := DFU_STATE_DFU_MANIFEST, poll_timeout := 0 }
    else c
  (c', [c'.status % 2 ^ 8,
        c'.poll_timeout &&& 0xFF,
        (c'.poll_timeout >>> 8) &&& 0xFF,
        (c'.poll_timeout >>> 16) &&& 0xFF,
        c'.state % 2 ^ 8,
        0])

/-- `dfu_clrstatus_handler`. -/
def dfu_clrstatus_handler (c : DfuCtx) : DfuCtx :=
  if c.state = DFU_STATE_DFU_ERROR then
    { c with state := DFU_STATE_DFU_IDLE, status := DFU_STATUS_OK }
  else c

/-- `dfu_getstate_handler`: replies with the single state byte. -/
def dfu_getstate_handler (c : DfuCtx) : DfuCtx × List Nat :=
  (c, [c.state % 2 ^ 8])

/-- `dfu_abort_handler`: unconditional session reset. -/
def dfu_abort_handler (c : DfuCtx) : DfuCtx :=
  { c with state := DFU_STATE_DFU_IDLE
           status := DFU_STATUS_OK
           block_num := 0
           current_address := APP_BASE
           target_address := APP_BASE
           erase_done := false }

/-- The duplicated little-endian address decode
`(buffer[1] << 0) | (buffer[2] << 8) | (buffer[3] << 16) | (buffer[4] << 24)`
used by the DFUSe set-address and erase commands. -/
def dfuse_le32 (buf : List Nat) : Nat :=
  (buf.getD 1 0) <<< 0 ||| (buf.getD 2 0) <<< 8 |||
  (buf.getD 3 0) <<< 16 ||| (buf.getD 4 0) <<< 24

/-- The regular-data-block tail of `usb_dfu_process` (address validation,
sanity check, unlock, `flash_write`, address advance).  `current_address`
is a `uint32_t`, so the advance is modulo `2 ^ 32`. -/
def usb_dfu_process_write (env : FlashEnv) (c : DfuCtx) : DfuCtx :=
  if flash_is_app_region c.current_address c.buffer_len = false then
    { c with status := DFU_STATUS_ERR_ADDRESS, state := DFU_STATE_DFU_ERROR }
  else if c.buffer_len = 0 ∨ DFU_XFER_SIZE < c.buffer_len then
    { c with status := DFU_STATUS_ERR_STALLEDPKT, state := DFU_STATE_DFU_ERROR }
  else if env.unlock2_ok = false then
    { c with status := DFU_STATUS_ERR_PROG, state := DFU_STATE_DFU_ERROR }
  else if env.write_ok = false then
    { c with status := DFU_STATUS_ERR_WRITE, state := DFU_STATE_DFU_ERROR }
  else
    { c with current_address := (c.current_address + c.buffer_len) % UINT32_MOD,
             buffer_len := 0, status := DFU_STATUS_OK }

/-- `usb_dfu_process`: the worker loop body. -/
def usb_dfu_process (env : FlashEnv) (c : DfuCtx) : DfuCtx :=
  if c.state = DFU_STATE_DFU_DNBUSY ∧ 0 < c.buffer_len then
    if c.block_num = 0xFFFF then
      let cmd := c.buffer.getD 0 0
      if cmd = DFUSE_CMD_SET_ADDRESS then
        if c.buffer_len = 5 then
          let c1 := { c with target_address := dfuse_le32 c.buffer }
          if c1.target_address < APP_BASE ∨ APP_BASE + APP_MAX_SIZE ≤ c1.target_address then
            { c1 with status := DFU_STATUS_ERR_ADDRESS, state := DFU_STATE_DFU_ERROR }
          else
            { c1 with current_address := c1.target_address,
                      status := DFU_STATUS_OK, buffer_len := 0 }
        else { c with status := DFU_STATUS_ERR_STALLEDPKT, state := DFU_STATE_DFU_ERROR }
      else if cmd = DFUSE_CMD_ERASE then
        if c.buffer_len = 5 then
          let erase_addr := dfuse_le32 c.buffer
          if erase_addr < APP_BASE ∨ APP_BASE + APP_MAX_SIZE ≤ erase_addr then
            { c with status := DFU_STATUS_ERR_ADDRESS, state := DFU_STATE_DFU_ERROR }
          else if env.unlock1_ok = false then
            { c with status := DFU_STATUS_ERR_PROG, state := DFU_STATE_DFU_ERROR }
          else if env.erase_ok = false then
            { c with status := DFU_STATUS_ERR_ERASE, state := DFU_STATE_DFU_ERROR }
          else
            { c with erase_done := true, current_address := APP_BASE,
                     status := DFU_STATUS_OK, buffer_len := 0 }
        else { c with status := DFU_STATUS_ERR_STALLEDPKT, state := DFU_STATE_DFU_ERROR }
      else { c with status := DFU_STATUS_ERR_STALLEDPKT, state := DFU_STATE_DFU_ERROR }
    else
      if c.erase_done = false ∧ c.block_num = 2 then
        if env.unlock1_ok = false then
          { c with status := DFU_STATUS_ERR_PROG, state := DFU_STATE_DFU_ERROR }
        else if env.erase_ok = false then
          { c with status := DFU_STATUS_ERR_ERASE, state := DFU_STATE_DFU_ERROR }
        else
          usb_dfu_process_write env { c with erase_done := true, current_address := APP_BASE }
      else
        usb_dfu_process_write env c
  else c

inductive DfuReq where
  | dnload (wValue wLength : Nat) (data : List Nat)
  | getstatus
  | clrstatus
  | getstate
  | abort
  | detach
  | process (env : FlashEnv)
deriving DecidableEq

/-- Well-formedness of a request: setup-packet fields are 16-bit, the data
phase delivers exactly `wLength` bytes, and payload entries are bytes. -/
def dfu_req_wf : DfuReq → Bool
  | .dnload wValue wLength data =>
      decide (wValue < 2 ^ 16) && decide (wLength < 2 ^ 16) &&
      decide (data.length = wLength) && data.all (fun b => decide (b < 256))
  | _ => true

/-- Effect of one request on the DFU context. -/
def dfu_step (r : DfuReq) (c : DfuCtx) : DfuCtx :=
  match r with
  | .dnload wValue wLength data => dfu_dnload_handler c wValue wLength data
  | .getstatus => (dfu_getstatus_handler c).1
  | .clrstatus => dfu_clrstatus_handler c
  | .getstate => (dfu_getstate_handler c).1
  | .abort => dfu_abort_handler c
  | .detach => c
  | .process env => usb_dfu_process env c

/-- Contexts reachable from `usb_dfu_init` under any sequence of
well-formed requests interleaved with worker iterations. -/
inductive DfuReachable : DfuCtx → Prop where
  | init : DfuReachable usb_dfu_init_ctx
  | step {c : DfuCtx} (r : DfuReq) (hr : dfu_req_wf r = true)
      (hc : DfuReachable c) : DfuReachable (dfu_step r c)

/-- Inductive invariant of the DFU context: the write pointer stays in the
application region, `buffer_len` fits in its `uint16_t` field, a pending
`DNLOAD_SYNC` always has buffered data, and an empty buffer in `DNBUSY`
implies the last operation succeeded. -/
def DfuInv (c : DfuCtx) : Prop :=
  APP_BASE ≤ c.current_address ∧
  c.current_address ≤ APP_BASE + APP_MAX_SIZE ∧
  c.buffer_len < 2 ^ 16 ∧
  (c.state = DFU_STATE_DFU_DNLOAD_SYNC → 0 < c.buffer_len) ∧
  (c.state = DFU_STATE_DFU_DNBUSY → c.buffer_len = 0 → c.status = DFU_STATUS_OK)

/-! ### USB device descriptor VID/PID patching (usb_dfu.c) -/

/-- The static 18-byte device descriptor (`USB_DESC_DEVICE` expanded),
with the compile-time default VID/PID at offsets 8–11, little-endian. -/
def vcom_device_descriptor_data : List Nat :=
  [0x12, 0x01,
   0x00, 0x02,
   0x00, 0x00, 0x00,
   USB_PACKET_SIZE,
   USB_DEFAULT_VID &&& 0xFF, (USB_DEFAULT_VID >>> 8) &&& 0xFF,
   USB_DEFAULT_PID &&& 0xFF, (USB_DEFAULT_PID >>> 8) &&& 0xFF,
   0x00, 0x01,
   1, 2, 3, 1]

/-- `get_usb_vid_pid`: reads the header VID/PID when the header magic
matches, the compile-time defaults otherwise.  (`usb_vid` is at header
offset 16, `usb_pid` at 18.) -/
def get_usb_vid_pid (m : Mem) : Nat × Nat :=
  if read32 m APP_BASE = APP_HEADER_MAGIC then
    (read16 m (APP_BASE + 16), read16 m (APP_BASE + 18))
  else
    (USB_DEFAULT_VID, USB_DEFAULT_PID)

/-- The descriptor after the patch performed by `usb_dfu_init`: bytes 8–11
overwritten little-endian with the VID/PID chosen by `get_usb_vid_pid`. -/
def usb_dfu_init_descriptor (m : Mem) : List Nat :=
  ((((vcom_device_descriptor_data.set 8 ((get_usb_vid_pid m).1 &&& 0xFF)).set 9
      (((get_usb_vid_pid m).1 >>> 8) &&& 0xFF)).set 10
      ((get_usb_vid_pid m).2 &&& 0xFF)).set 11
      (((get_usb_vid_pid m).2 >>> 8) &&& 0xFF))

/-! ### Concrete contexts and memories used as witnesses -/

/-- A reachable context in state DNBUSY with an empty buffer: DNLOAD of a
DFUSe set-address command, GETSTATUS, then one successful worker step. -/
def dfu_c10_witness_ctx : DfuCtx :=
  dfu_step (DfuReq.process ⟨true, true, true, true⟩)
    (dfu_step DfuReq.getstatus
      (dfu_step (DfuReq.dnload 0 5 [0x21, 0x00, 0x40, 0x00, 0x08]) usb_dfu_init_ctx))

/-- A context in the ERROR state (status `errADDRESS`). -/
def dfu_error_ctx : DfuCtx :=
  { usb_dfu_init_ctx with state := DFU_STATE_DFU_ERROR, status := DFU_STATUS_ERR_ADDRESS }

/-- A DNBUSY context holding a set-address command aimed at `0x08002000`,
inside the bootloader region. -/
def dfu_c9_witness_ctx : DfuCtx :=
  { usb_dfu_init_ctx with
    state := DFU_STATE_DFU_DNBUSY
    block_num := 0xFFFF
    buffer := [0x21, 0x00, 0x20, 0x00, 0x08]
    buffer_len := 5 }

/-- A DNLOAD_SYNC context holding a pending DFUSe special command. -/
def dfu_dnload_sync_ctx : DfuCtx :=
  { usb_dfu_init_ctx with
    state := DFU_STATE_DFU_DNLOAD_SYNC
    block_num := 0xFFFF
    buffer_len := 5 }

/-- A flash image whose header has a valid magic, VID `0x1234`,
PID `0x5678`, but `size = 0` — so `bootloader_validate_app` rejects it. -/
def c7_mem : Mem := fun a =>
  if a = APP_BASE then 0xEF else if a = APP_BASE + 1 then 0xBE
  else if a = APP_BASE + 2 then 0xAD else if a = APP_BASE + 3 then 0xDE
  else if a = APP_BASE + 16 then 0x34 else if a = APP_BASE + 17 then 0x12
  else if a = APP_BASE + 18 then 0x78 else if a = APP_BASE + 19 then 0x56
  else 0

/-! ### Theorems -/

/-- General-purpose form of the C4 characterization, used when reasoning
about the worker's address-range guard. -/
theorem flash_is_app_region_iff (addr len : Nat) :
    flash_is_app_region addr len = true ↔
      (APP_BASE ≤ addr ∧ addr < FLASH_END ∧ (addr + len) % 2 ^ 32 ≤ FLASH_END) := by
  unfold flash_is_app_region UINT32_MOD APP_BASE FLASH_END FLASH_BASE_ADDRESS FLASH_TOTAL_SIZE
  split_ifs <;> simp_all <;> omega

/-- Claim C1: `bootloader_validate_app` returns true iff the header at
`APP_BASE` has magic `0xDEADBEEF`, `0 < size ≤ APP_MAX_SIZE`, and the CRC32
over exactly `size` bytes starting at `APP_BASE + 0x100` equals the header
`crc32` field; in every other case it returns false (it is a total Boolean
function with no error channel). -/
theorem validate_app_iff (m : Mem) :
    bootloader_validate_app m = true ↔
      (read32 m APP_BASE = 0xDEADBEEF ∧
       0 < read32 m (APP_BASE + 8) ∧
       read32 m (APP_BASE + 8) ≤ APP_MAX_SIZE ∧
       crc32_calculate
         (readBytes m (APP_BASE + APP_VECTOR_TABLE_OFFSET) (read32 m (APP_BASE + 8)))
         = read32 m (APP_BASE + 12)) := by
  unfold bootloader_validate_app APP_HEADER_MAGIC
  split_ifs with h1 h2 h3 <;> simp_all <;> omega

/-- Claim C4, counterexample: at `addr = FLASH_END`, `len = 0` the claimed
characterization (`APP_BASE ≤ addr ∧ addr + len ≤ FLASH_END`) holds, yet
`flash_is_app_region` returns false, so the claim as stated is false. -/
theorem flash_is_app_region_counterexample :
    APP_BASE ≤ FLASH_END ∧ FLASH_END + 0 ≤ FLASH_END ∧
    flash_is_app_region FLASH_END 0 = false := by decide

/-- Claim C4 (amended): `flash_is_app_region addr len` returns true iff
`APP_BASE ≤ addr`, `addr < FLASH_END`, and the 32-bit sum
`(addr + len) % 2^32` is at most `FLASH_END`. -/
theorem flash_is_app_region_spec (addr len : Nat) :
    flash_is_app_region addr len = true ↔
      (APP_BASE ≤ addr ∧ addr < FLASH_END ∧ (addr + len) % 2 ^ 32 ≤ FLASH_END) := by
  unfold flash_is_app_region UINT32_MOD APP_BASE FLASH_END FLASH_BASE_ADDRESS FLASH_TOTAL_SIZE
  split_ifs <;> simp_all <;> omega

/-- Claim C8: the one-shot CRC32 (initial value `0xFFFFFFFF`, table-driven
reflected update with polynomial `0xEDB88320`, final xor `0xFFFFFFFF`)
matches the canonical reference: the empty input yields `0x00000000` and the
nine ASCII bytes of `123456789` yield `0xCBF43926`. -/
theorem crc32_reference_values :
    crc32_calculate [] = 0x00000000 ∧
    crc32_calculate [0x31, 0x32, 0x33, 0x34, 0x35, 0x36, 0x37, 0x38, 0x39] = 0xCBF43926 ∧
    (∀ data : List Nat, crc32_calculate data = crc32_finalize (crc32_update crc32_init data)) :=
  ⟨by decide, by decide, fun _ => rfl⟩

/-! #### Word construction and byte extraction for `flash_write` -/

theorem lor_small (a b n : Nat) (hb : b < 2 ^ n) : b ||| (a <<< n) = 2 ^ n * a + b := by
  rw [Nat.or_comm, Nat.shiftLeft_eq, Nat.mul_comm a (2 ^ n), ← Nat.mul_add_lt_is_or hb]

theorem land_shiftLeft_eq_zero (a y n : Nat) (ha : a < 2 ^ n) : a &&& (y <<< n) = 0 := by
  apply Nat.eq_of_testBit_eq
  intro i
  simp only [Nat.testBit_land, Nat.testBit_shiftLeft, Nat.zero_testBit]
  by_cases hi : n ≤ i
  · have hf : a.testBit i = false :=
      Nat.testBit_lt_two_pow (lt_of_lt_of_le ha (Nat.pow_le_pow_right (by norm_num) hi))
    simp [hf]
  · simp [hi]

theorem land_keep_low (s hi n : Nat) (hs : s < 2 ^ n) :
    s &&& ((hi <<< n) ||| (2 ^ n - 1)) = s := by
  rw [Nat.and_or_distrib_left, land_shiftLeft_eq_zero s hi n hs,
    Nat.and_pow_two_sub_one_eq_mod]
  simp [Nat.mod_eq_of_lt hs]

theorem word4_eq (b0 b1 b2 b3 : Nat) (h0 : b0 < 256) (h1 : b1 < 256) (h2 : b2 < 256) :
    b0 <<< 0 ||| b1 <<< 8 ||| b2 <<< 16 ||| b3 <<< 24 = leWord b0 b1 b2 b3 := by
  rw [Nat.shiftLeft_zero]
  rw [lor_small b1 b0 8 h0]
  rw [lor_small b2 (2 ^ 8 * b1 + b0) 16 (by omega)]
  rw [lor_small b3 (2 ^ 16 * b2 + (2 ^ 8 * b1 + b0)) 24 (by omega)]
  unfold leWord
  omega

theorem pad_word_one (a : Nat) (ha : a < 256) : pad_word [a] = leWord a 0xFF 0xFF 0xFF := by
  have e : pad_word [a] =
      (0xFFFFFFFF &&& (0xFFFFFFFF ^^^ (0xFF <<< (8 * 0)))) ||| (([a].getD 0 0) <<< (8 * 0)) := rfl
  rw [e]
  norm_num
  rw [show ((4294967295 : Nat) ^^^ 255) = 4294967040 from by decide]
  rw [show ((4294967295 : Nat) &&& 4294967040) = 4294967040 from by decide]
  rw [Nat.or_comm, show (4294967040 : Nat) = 0xFFFFFF <<< 8 from by decide,
    lor_small 0xFFFFFF a 8 ha]
  unfold leWord
  omega

theorem pad_word_two (a b : Nat) (ha : a < 256) (hb : b < 256) :
    pad_word [a, b] = leWord a b 0xFF 0xFF := by
  have e : pad_word [a, b] =
      (((0xFFFFFFFF &&& (0xFFFFFFFF ^^^ (0xFF <<< (8 * 0)))) |||
          (([a, b].getD 0 0) <<< (8 * 0)))
        &&& (0xFFFFFFFF ^^^ (0xFF <<< (8 * 1)))) ||| (([a, b].getD 1 0) <<< (8 * 1)) := rfl
  rw [e]
  norm_num
  rw [show ((4294967295 : Nat) ^^^ 255) = 4294967040 from by decide]
  rw [show ((4294967295 : Nat) &&& 4294967040) = 4294967040 from by decide]
  rw [show ((255 : Nat) <<< 8) = 65280 from by decide]
  rw [show ((4294967295 : Nat) ^^^ 65280) = 4294902015 from by decide]
  rw [Nat.and_distrib_right]
  rw [show ((4294967040 : Nat) &&& 4294902015) = 4294901760 from by decide]
  rw [show (4294902015 : Nat) = (0xFFFF00 <<< 8) ||| (2 ^ 8 - 1) from by decide]
  rw [land_keep_low a 0xFFFF00 8 ha]
  rw [Nat.or_assoc, lor_small b a 8 ha]
  rw [Nat.or_comm, show (4294901760 : Nat) = 0xFFFF <<< 16 from by decide,
    lor_small 0xFFFF (2 ^ 8 * b + a) 16 (by omega)]
  unfold leWord
  omega

theorem pad_word_three (a b c : Nat) (ha : a < 256) (hb : b < 256) (hc : c < 256) :
    pad_word [a, b, c] = leWord a b c 0xFF := by
  have e : pad_word [a, b, c] =
      ((0xFFFFFFFF &&& (0xFFFFFFFF ^^^ (0xFF <<< (8 * 0))) ||| [a, b, c].getD 0 0 <<< (8 * 0)) &&&
          (0xFFFFFFFF ^^^ (0xFF <<< (8 * 1))) ||| [a, b, c].getD 1 0 <<< (8 * 1)) &&&
        (0xFFFFFFFF ^^^ (0xFF <<< (8 * 2))) ||| [a, b, c].getD 2 0 <<< (8 * 2) := rfl
  rw [e]
  norm_num
  rw [show ((4294967295 : Nat) ^^^ 255) = 4294967040 from by decide]
  rw [show ((4294967295 : Nat) &&& 4294967040) = 4294967040 from by decide]
  rw [show ((255 : Nat) <<< 8) = 65280 from by decide]
  rw [show ((4294967295 : Nat) ^^^ 65280) = 4294902015 from by decide]
  rw [show ((255 : Nat) <<< 16) = 16711680 from by decide]
  rw [show ((4294967295 : Nat) ^^^ 16711680) = 4278255615 from by decide]
  rw [Nat.and_distrib_right 4294967040 a 4294902015]
  rw [show ((4294967040 : Nat) &&& 4294902015) = 4294901760 from by decide]
  rw [show (4294902015 : Nat) = (0xFFFF00 <<< 8) ||| (2 ^ 8 - 1) from by decide]
  rw [land_keep_low a 0xFFFF00 8 ha]
  rw [Nat.or_assoc 4294901760 a (b <<< 8), lor_small b a 8 ha]
  rw [Nat.and_distrib_right 4294901760 (2 ^ 8 * b + a) 4278255615]
  rw [show ((4294901760 : Nat) &&& 4278255615) = 4278190080 from by decide]
  rw [show (4278255615 : Nat) = (0xFF00 <<< 16) ||| (2 ^ 16 - 1) from by decide]
  rw [land_keep_low (2 ^ 8 * b + a) 0xFF00 16 (by omega)]
  rw [Nat.or_assoc 4278190080 (2 ^ 8 * b + a) (c <<< 16),
    lor_small c (2 ^ 8 * b + a) 16 (by omega)]
  rw [Nat.or_comm, show (4278190080 : Nat) = 0xFF <<< 24 from by decide,
    lor_small 0xFF (2 ^ 16 * c + (2 ^ 8 * b + a)) 24 (by omega)]
  unfold leWord
  omega

theorem padByte_lt (d : List Nat) (hb : ∀ b ∈ d, b < 256) (k : Nat) : padByte d k < 256 := by
  unfold padByte
  split_ifs with h
  · have hg : d.getD k 0 = d[k] := by
      simp [List.getD_eq_getElem?_getD, List.getElem?_eq_getElem h]
    rw [hg]
    exact hb _ (List.getElem_mem h)
  · norm_num

theorem padByte_eq_getD (d : List Nat) (k : Nat) (h : k < d.length) :
    padByte d k = d.getD k 0 := by
  unfold padByte
  rw [if_pos h]

theorem padByte_eq_ff (d : List Nat) (k : Nat) (h : d.length ≤ k) :
    padByte d k = 0xFF := by
  unfold padByte
  rw [if_neg (by omega)]

theorem getD_drop (d : List Nat) (n i : Nat) :
    (d.drop n).getD i 0 = d.getD (n + i) 0 := by
  simp [List.getD_eq_getElem?_getD, List.getElem?_drop]

theorem padByte_drop (d : List Nat) (n i : Nat) :
    padByte (d.drop n) i = padByte d (n + i) := by
  unfold padByte
  rw [List.length_drop, getD_drop]
  split_ifs <;> first | rfl | omega

theorem word1_val (d : List Nat) (hb : ∀ b ∈ d, b < 256) :
    flash_write_word1 d =
      leWord (padByte d 0) (padByte d 1) (padByte d 2) (padByte d 3) := by
  unfold flash_write_word1
  split_ifs with h4
  · rw [padByte_eq_getD d 0 (by omega), padByte_eq_getD d 1 (by omega),
      padByte_eq_getD d 2 (by omega), padByte_eq_getD d 3 (by omega)]
    have q0 : d.getD 0 0 < 256 := by
      rw [← padByte_eq_getD d 0 (by omega)]
      exact padByte_lt d hb 0
    have q1 : d.getD 1 0 < 256 := by
      rw [← padByte_eq_getD d 1 (by omega)]
      exact padByte_lt d hb 1
    have q2 : d.getD 2 0 < 256 := by
      rw [← padByte_eq_getD d 2 (by omega)]
      exact padByte_lt d hb 2
    exact word4_eq _ _ _ _ q0 q1 q2
  · match d, h4 with
    | b0 :: b1 :: b2 :: b3 :: rest, h =>
        exact absurd (by simp) h
    | [], _ =>
        show pad_word [] = _
        rw [show pad_word [] = 0xFFFFFFFF from rfl]
        simp [padByte]
        decide
    | [b0], _ =>
        have h0 : b0 < 256 := hb b0 (by simp)
        show pad_word [b0] = _
        rw [pad_word_one b0 h0]
        rw [padByte_eq_getD [b0] 0 (by simp), padByte_eq_ff [b0] 1 (by simp),
          padByte_eq_ff [b0] 2 (by simp), padByte_eq_ff [b0] 3 (by simp)]
        rfl
    | [b0, b1], _ =>
        have h0 : b0 < 256 := hb b0 (by simp)
        have h1 : b1 < 256 := hb b1 (by simp)
        show pad_word [b0, b1] = _
        rw [pad_word_two b0 b1 h0 h1]
        rw [padByte_eq_getD [b0, b1] 0 (by simp), padByte_eq_getD [b0, b1] 1 (by simp),
          padByte_eq_ff [b0, b1] 2 (by simp), padByte_eq_ff [b0, b1] 3 (by simp)]
        rfl
    | [b0, b1, b2], _ =>
        have h0 : b0 < 256 := hb b0 (by simp)
        have h1 : b1 < 256 := hb b1 (by simp)
        have h2 : b2 < 256 := hb b2 (by simp)
        show pad_word [b0, b1, b2] = _
        rw [pad_word_three b0 b1 b2 h0 h1 h2]
        rw [padByte_eq_getD [b0, b1, b2] 0 (by simp), padByte_eq_getD [b0, b1, b2] 1 (by simp),
          padByte_eq_getD [b0, b1, b2] 2 (by simp), padByte_eq_ff [b0, b1, b2] 3 (by simp)]
        rfl

theorem word2_eq_word1_drop (d : List Nat) :
    flash_write_word2 d = flash_write_word1 (d.drop 4) := by
  unfold flash_write_word1 flash_write_word2
  by_cases h8 : 8 ≤ d.length
  · rw [if_pos h8, if_pos (by rw [List.length_drop]; omega)]
    rw [getD_drop d 4 0, getD_drop d 4 1, getD_drop d 4 2, getD_drop d 4 3]
  · rw [if_neg h8]
    by_cases h4 : 4 < d.length
    · rw [if_pos h4, if_neg (by rw [List.length_drop]; omega)]
      rw [List.take_of_length_le (by rw [List.length_drop]; omega)]
    · rw [if_neg h4, List.drop_eq_nil_of_le (by omega)]
      rfl

theorem word2_val (d : List Nat) (hb : ∀ b ∈ d, b < 256) :
    flash_write_word2 d =
      leWord (padByte d 4) (padByte d 5) (padByte d 6) (padByte d 7) := by
  rw [word2_eq_word1_drop, word1_val (d.drop 4) (fun b hbm => hb b (List.mem_of_mem_drop hbm))]
  rw [padByte_drop d 4 0, padByte_drop d 4 1, padByte_drop d 4 2, padByte_drop d 4 3]

theorem store32_read (m : Mem) (a w k : Nat) (hk : k < 4) :
    store32 m a w (a + k) = (w >>> (8 * k)) &&& 0xFF := by
  unfold store32
  rw [if_pos ⟨Nat.le_add_right a k, by omega⟩, Nat.add_sub_cancel_left]

theorem store32_frame (m : Mem) (a w x : Nat) (hx : x < a ∨ a + 4 ≤ x) :
    store32 m a w x = m x := by
  unfold store32
  rw [if_neg (by omega)]

theorem word_byte (w k : Nat) : (w >>> (8 * k)) &&& 0xFF = w / 2 ^ (8 * k) % 2 ^ 8 := by
  rw [Nat.shiftRight_eq_div_pow,
    show (0xFF : Nat) = 2 ^ 8 - 1 from rfl, Nat.and_pow_two_sub_one_eq_mod]

theorem flash_write_doubleword_read (m : Mem) (addr : Nat) (d : List Nat)
    (hb : ∀ b ∈ d, b < 256) (k : Nat) (hk : k < 8) :
    flash_write_doubleword m addr (flash_write_word1 d) (flash_write_word2 d) (addr + k)
      = padByte d k := by
  unfold flash_write_doubleword
  have q0 := padByte_lt d hb 0
  have q1 := padByte_lt d hb 1
  have q2 := padByte_lt d hb 2
  have q3 := padByte_lt d hb 3
  have q4 := padByte_lt d hb 4
  have q5 := padByte_lt d hb 5
  have q6 := padByte_lt d hb 6
  have q7 := padByte_lt d hb 7
  by_cases h4 : k < 4
  · rw [store32_frame _ _ _ _ (Or.inl (by omega))]
    rw [store32_read _ _ _ _ h4]
    rw [word1_val d hb, word_byte]
    unfold leWord
    interval_cases k <;> norm_num <;> omega
  · have hx : addr + k = (addr + 4) + (k - 4) := by omega
    rw [hx, store32_read _ _ _ _ (by omega)]
    rw [word2_val d hb, word_byte]
    unfold leWord
    interval_cases k <;> norm_num <;> omega

theorem flash_write_doubleword_frame (m : Mem) (addr w1 w2 x : Nat)
    (hx : x < addr ∨ addr + 8 ≤ x) :
    flash_write_doubleword m addr w1 w2 x = m x := by
  unfold flash_write_doubleword
  rw [store32_frame _ _ _ _ (by omega), store32_frame _ _ _ _ (by omega)]

theorem flash_write_chunks_nil (m : Mem) (addr : Nat) :
    flash_write_chunks m addr [] = m := by
  rw [flash_write_chunks]
  simp

theorem flash_write_chunks_spec (n : Nat) :
    ∀ (d : List Nat) (m : Mem) (addr : Nat), d.length ≤ n →
      (∀ b ∈ d, b < 256) →
      (∀ k, k < d.length → flash_write_chunks m addr d (addr + k) = d.getD k 0) ∧
      (∀ k, d.length ≤ k → k < 8 * ((d.length + 7) / 8) →
        flash_write_chunks m addr d (addr + k) = 0xFF) ∧
      (∀ x, x < addr ∨ addr + 8 * ((d.length + 7) / 8) ≤ x →
        flash_write_chunks m addr d x = m x) := by
  induction n with
  | zero =>
      intro d m addr hn hb
      have hd : d = [] := List.length_eq_zero.mp (by omega)
      subst hd
      refine ⟨?_, ?_, ?_⟩
      · intro k hk
        simp at hk
      · intro k hk1 hk2
        simp at hk2
      · intro x hx
        rw [flash_write_chunks_nil]
  | succ n ih =>
      intro d m addr hn hb
      by_cases hd : d = []
      · subst hd
        refine ⟨?_, ?_, ?_⟩
        · intro k hk
          simp at hk
        · intro k hk1 hk2
          simp at hk2
        · intro x hx
          rw [flash_write_chunks_nil]
      · have hL : 0 < d.length := List.length_pos.mpr hd
        have hstep : flash_write_chunks m addr d =
            flash_write_chunks
              (flash_write_doubleword m addr (flash_write_word1 d) (flash_write_word2 d))
              (addr + 8) (d.drop 8) := by
          rw [flash_write_chunks]
          rw [if_neg hd]
        have hdl : (d.drop 8).length = d.length - 8 := by simp
        obtain ⟨ih1, ih2, ih3⟩ :=
          ih (d.drop 8)
            (flash_write_doubleword m addr (flash_write_word1 d) (flash_write_word2 d))
            (addr + 8) (by omega) (fun b hbm => hb b (List.mem_of_mem_drop hbm))
        refine ⟨?_, ?_, ?_⟩
        · intro k hk
          rw [hstep]
          by_cases h8 : k < 8
          · rw [ih3 (addr + k) (Or.inl (by omega))]
            rw [flash_write_doubleword_read m addr d hb k h8]
            exact padByte_eq_getD d k hk
          · have hx : addr + k = (addr + 8) + (k - 8) := by omega
            rw [hx, ih1 (k - 8) (by omega)]
            rw [getD_drop]
            congr 1
            omega
        · intro k hk1 hk2
          rw [hstep]
          by_cases h8 : k < 8
          · rw [ih3 (addr + k) (Or.inl (by omega))]
            rw [flash_write_doubleword_read m addr d hb k h8]
            exact padByte_eq_ff d k hk1
          · have hx : addr + k = (addr + 8) + (k - 8) := by omega
            rw [hx, ih2 (k - 8) (by omega) (by omega)]
        · intro x hx
          rw [hstep]
          rw [ih3 x (by omega)]
          exact flash_write_doubleword_frame m addr _ _ x (by omega)

/-- Claim C5: for an 8-byte-aligned address and a non-empty byte buffer
with `addr + len ≤ FLASH_END`, a successful `flash_write` leaves the bytes
at `[addr, addr+len)` equal to `data`, and the remaining bytes of the final
8-byte double-word (the partial tail) equal to `0xFF`.  (The success path of
the double-word programming is the byte-granular store modelled by
`flash_write_doubleword`.) -/
theorem flash_write_spec (m : Mem) (addr : Nat) (data : List Nat)
    (_halign : addr % 8 = 0) (hne : data ≠ [])
    (_hbound : addr + data.length ≤ FLASH_END) (hb : ∀ b ∈ data, b < 256) :
    ∃ m' : Mem, flash_write m addr data = Except.ok m' ∧
      (∀ k, k < data.length → m' (addr + k) = data.getD k 0) ∧
      (∀ k, data.length ≤ k → k < 8 * ((data.length + 7) / 8) → m' (addr + k) = 0xFF) := by
  obtain ⟨h1, h2, h3⟩ := flash_write_chunks_spec data.length data m addr (Nat.le_refl _) hb
  refine ⟨flash_write_chunks m addr data, ?_, h1, h2⟩
  unfold flash_write
  rw [if_neg hne]

theorem flash_write_spec_witness :
    ∃ m' : Mem, flash_write (fun _ => 0) 0x08004000 [1, 2, 3] = Except.ok m' ∧
      (∀ k, k < ([1, 2, 3] : List Nat).length → m' (0x08004000 + k) = [1, 2, 3].getD k 0) ∧
      (∀ k, ([1, 2, 3] : List Nat).length ≤ k →
        k < 8 * ((([1, 2, 3] : List Nat).length + 7) / 8) → m' (0x08004000 + k) = 0xFF) :=
  flash_write_spec (fun _ => 0) 0x08004000 [1, 2, 3] (by decide) (by decide) (by decide)
    (by decide)

/-! #### Reachability invariants of the DFU context -/

theorem dfu_inv_init : DfuInv usb_dfu_init_ctx := by unfold DfuInv; decide

/-- Every worker failure path ends in the same shape of context update:
`status := some error, state := DFU_STATE_DFU_ERROR`, which preserves the
invariant. -/
theorem dfu_inv_error (c : DfuCtx) (s : Nat)
    (h1 : APP_BASE ≤ c.current_address)
    (h2 : c.current_address ≤ APP_BASE + APP_MAX_SIZE)
    (h3 : c.buffer_len < 2 ^ 16) :
    DfuInv { c with status := s, state := DFU_STATE_DFU_ERROR } := by
  refine ⟨h1, h2, h3, ?_, ?_⟩ <;> intro hk <;>
    simp [DFU_STATE_DFU_ERROR, DFU_STATE_DFU_DNLOAD_SYNC, DFU_STATE_DFU_DNBUSY] at hk

/-- The data-block tail of the worker preserves the invariant when entered
from `DNBUSY`. -/
theorem dfu_inv_write (env : FlashEnv) (c : DfuCtx)
    (hs : c.state = DFU_STATE_DFU_DNBUSY)
    (h1 : APP_BASE ≤ c.current_address)
    (h2 : c.current_address ≤ APP_BASE + APP_MAX_SIZE)
    (h3 : c.buffer_len < 2 ^ 16) :
    DfuInv (usb_dfu_process_write env c) := by
  unfold usb_dfu_process_write
  split_ifs with hfa hsz hu hw
  · exact dfu_inv_error c _ h1 h2 h3
  · exact dfu_inv_error c _ h1 h2 h3
  · exact dfu_inv_error c _ h1 h2 h3
  · exact dfu_inv_error c _ h1 h2 h3
  · have hfa' : flash_is_app_region c.current_address c.buffer_len = true := by
      simpa using hfa
    rw [flash_is_app_region_iff] at hfa'
    obtain ⟨ha1, ha2, ha3⟩ := hfa'
    refine ⟨?_, ?_, ?_, ?_, ?_⟩
    · show APP_BASE ≤ (c.current_address + c.buffer_len) % UINT32_MOD
      simp only [APP_BASE, FLASH_END, FLASH_BASE_ADDRESS, FLASH_TOTAL_SIZE,
        UINT32_MOD] at *
      omega
    · show (c.current_address + c.buffer_len) % UINT32_MOD ≤ APP_BASE + APP_MAX_SIZE
      simp only [APP_BASE, APP_MAX_SIZE, FLASH_END, FLASH_BASE_ADDRESS, FLASH_TOTAL_SIZE,
        UINT32_MOD] at *
      omega
    · show (0 : Nat) < 2 ^ 16
      norm_num
    · intro hk
      have hk' : c.state = DFU_STATE_DFU_DNLOAD_SYNC := hk
      rw [hs] at hk'
      simp [DFU_STATE_DFU_DNLOAD_SYNC, DFU_STATE_DFU_DNBUSY] at hk'
    · intro _ _
      rfl

theorem dfu_inv_step (r : DfuReq) (c : DfuCtx) (hr : dfu_req_wf r = true)
    (h : DfuInv c) : DfuInv (dfu_step r c) := by
  obtain ⟨h1, h2, h3, h4, h5⟩ := h
  cases r with
  | dnload wValue wLength data =>
      simp only [dfu_req_wf, Bool.and_eq_true, decide_eq_true_eq] at hr
      unfold dfu_step dfu_dnload_handler DfuInv
      simp only [DFU_STATE_DFU_IDLE, DFU_STATE_DFU_DNLOAD_SYNC, DFU_STATE_DFU_DNBUSY,
        DFU_STATE_DFU_DNLOAD_IDLE, DFU_STATE_DFU_MANIFEST_SYNC, DFU_STATE_DFU_ERROR,
        DFU_XFER_SIZE] at *
      split_ifs <;> refine ⟨?_, ?_, ?_, ?_, ?_⟩ <;> intros <;> simp_all <;> omega
  | getstatus =>
      unfold dfu_step dfu_getstatus_handler DfuInv
      simp only [DFU_STATE_DFU_IDLE, DFU_STATE_DFU_DNLOAD_SYNC, DFU_STATE_DFU_DNBUSY,
        DFU_STATE_DFU_DNLOAD_IDLE, DFU_STATE_DFU_MANIFEST_SYNC, DFU_STATE_DFU_MANIFEST,
        DFU_STATE_DFU_ERROR] at *
      split_ifs <;> refine ⟨?_, ?_, ?_, ?_, ?_⟩ <;> intros <;> simp_all
  | clrstatus =>
      unfold dfu_step dfu_clrstatus_handler DfuInv
      simp only [DFU_STATE_DFU_IDLE, DFU_STATE_DFU_DNLOAD_SYNC, DFU_STATE_DFU_DNBUSY,
        DFU_STATE_DFU_ERROR] at *
      split_ifs <;> refine ⟨?_, ?_, ?_, ?_, ?_⟩ <;> intros <;> simp_all
  | getstate =>
      unfold dfu_step dfu_getstate_handler
      exact ⟨h1, h2, h3, h4, h5⟩
  | abort =>
      unfold dfu_step dfu_abort_handler DfuInv
      simp only [DFU_STATE_DFU_IDLE, DFU_STATE_DFU_DNLOAD_SYNC, DFU_STATE_DFU_DNBUSY,
        APP_BASE, APP_MAX_SIZE] at *
      refine ⟨?_, ?_, ?_, ?_, ?_⟩ <;> intros <;> simp_all
  | detach =>
      exact ⟨h1, h2, h3, h4, h5⟩
  | process env =>
      show DfuInv (usb_dfu_process env c)
      unfold usb_dfu_process
      by_cases hg : c.state = DFU_STATE_DFU_DNBUSY ∧ 0 < c.buffer_len
      case neg =>
        rw [if_neg hg]
        exact ⟨h1, h2, h3, h4, h5⟩
      case pos =>
        rw [if_pos hg]
        by_cases hbn : c.block_num = 0xFFFF
        case pos =>
          rw [if_pos hbn]
          dsimp only
          split_ifs with hcmd hlen5 haddr hcmd2 hlen5e haddre hu1 he1
          · exact dfu_inv_error _ _ h1 h2 h3
          · have haddr' : ¬(dfuse_le32 c.buffer < APP_BASE ∨
                APP_BASE + APP_MAX_SIZE ≤ dfuse_le32 c.buffer) := haddr
            refine ⟨?_, ?_, by norm_num, ?_, fun _ _ => rfl⟩
            · show APP_BASE ≤ dfuse_le32 c.buffer
              omega
            · show dfuse_le32 c.buffer ≤ APP_BASE + APP_MAX_SIZE
              omega
            · intro hk
              have hk' : c.state = DFU_STATE_DFU_DNLOAD_SYNC := hk
              rw [hg.1] at hk'
              simp [DFU_STATE_DFU_DNLOAD_SYNC, DFU_STATE_DFU_DNBUSY] at hk'
          · exact dfu_inv_error _ _ h1 h2 h3
          · exact dfu_inv_error _ _ h1 h2 h3
          · exact dfu_inv_error _ _ h1 h2 h3
          · exact dfu_inv_error _ _ h1 h2 h3
          · refine ⟨Nat.le_refl _, Nat.le_add_right _ _, by norm_num, ?_, fun _ _ => rfl⟩
            intro hk
            have hk' : c.state = DFU_STATE_DFU_DNLOAD_SYNC := hk
            rw [hg.1] at hk'
            simp [DFU_STATE_DFU_DNLOAD_SYNC, DFU_STATE_DFU_DNBUSY] at hk'
          · exact dfu_inv_error _ _ h1 h2 h3
          · exact dfu_inv_error _ _ h1 h2 h3
        case neg =>
          rw [if_neg hbn]
          split_ifs with hauto hu1 he1
          · exact dfu_inv_error _ _ h1 h2 h3
          · exact dfu_inv_error _ _ h1 h2 h3
          · exact dfu_inv_write env _ hg.1 (Nat.le_refl _) (Nat.le_add_right _ _) h3
          · exact dfu_inv_write env c hg.1 h1 h2 h3

theorem dfu_inv_reachable {c : DfuCtx} (h : DfuReachable c) : DfuInv c := by
  induction h with
  | init => exact dfu_inv_init
  | step r hr _ ih => exact dfu_inv_step r _ hr ih

/-- Claim C2: in every DFU context reachable from `usb_dfu_init` under any
sequence of DNLOAD/GETSTATUS/CLRSTATUS/GETSTATE/ABORT/DETACH handler calls
interleaved with `usb_dfu_process` steps,
`APP_BASE ≤ current_address ≤ APP_BASE + APP_MAX_SIZE`. -/
theorem dfu_current_address_in_app_region {c : DfuCtx} (h : DfuReachable c) :
    APP_BASE ≤ c.current_address ∧ c.current_address ≤ APP_BASE + APP_MAX_SIZE :=
  ⟨(dfu_inv_reachable h).1, (dfu_inv_reachable h).2.1⟩

/-- Witness for C2 at the initial context. -/
theorem dfu_current_address_in_app_region_witness :
    APP_BASE ≤ usb_dfu_init_ctx.current_address ∧
    usb_dfu_init_ctx.current_address ≤ APP_BASE + APP_MAX_SIZE :=
  dfu_current_address_in_app_region DfuReachable.init

/-- Claim C10: in every reachable DFU context, `state = DNBUSY` with
`buffer_len = 0` implies `status = OK`, so the GETSTATUS branch that moves
DNBUSY to ERROR (empty buffer with a non-OK status) is never taken. -/
theorem dfu_dnbusy_empty_implies_ok {c : DfuCtx} (h : DfuReachable c)
    (hs : c.state = DFU_STATE_DFU_DNBUSY) (hb : c.buffer_len = 0) :
    c.status = DFU_STATUS_OK :=
  (dfu_inv_reachable h).2.2.2.2 hs hb

/-- Witness for C10. -/
theorem dfu_dnbusy_empty_implies_ok_witness :
    dfu_c10_witness_ctx.status = DFU_STATUS_OK :=
  @dfu_dnbusy_empty_implies_ok dfu_c10_witness_ctx
    (DfuReachable.step _ (by decide)
      (DfuReachable.step _ (by decide)
        (DfuReachable.step _ (by decide) DfuReachable.init)))
    (by decide) (by decide)

/-- Claim C3, counterexample: an ABORT request — which is not CLRSTATUS —
also makes the state machine leave ERROR (`dfu_abort_handler` resets the
state to IDLE unconditionally), so CLRSTATUS is not the only way out. -/
theorem dfu_abort_leaves_error_counterexample :
    dfu_error_ctx.state = DFU_STATE_DFU_ERROR ∧
    (dfu_step DfuReq.abort dfu_error_ctx).state = DFU_STATE_DFU_IDLE ∧
    DFU_STATE_DFU_IDLE ≠ DFU_STATE_DFU_ERROR := by decide

/-- Claim C3 (amended): from ERROR, exactly CLRSTATUS and ABORT leave the
ERROR state (both reset it to IDLE); every other request — and the worker —
leaves the state equal to ERROR (DNLOAD re-enters ERROR, the rest are
ignored or only answer with data). -/
theorem dfu_error_exit_requires_clrstatus_or_abort (c : DfuCtx)
    (h : c.state = DFU_STATE_DFU_ERROR) :
    (dfu_step DfuReq.clrstatus c).state = DFU_STATE_DFU_IDLE ∧
    (dfu_step DfuReq.abort c).state = DFU_STATE_DFU_IDLE ∧
    (∀ r : DfuReq, dfu_req_wf r = true →
      (dfu_step r c).state ≠ DFU_STATE_DFU_ERROR →
      r = DfuReq.clrstatus ∨ r = DfuReq.abort) := by
  refine ⟨?_, rfl, ?_⟩
  · show (dfu_clrstatus_handler c).state = DFU_STATE_DFU_IDLE
    unfold dfu_clrstatus_handler
    rw [if_pos h]
  · intro r hr hne
    cases r with
    | dnload wValue wLength data =>
        exact absurd (by
          simp [dfu_step, dfu_dnload_handler, h, DFU_STATE_DFU_IDLE,
            DFU_STATE_DFU_DNLOAD_IDLE, DFU_STATE_DFU_ERROR, DFU_XFER_SIZE]) hne
    | getstatus =>
        exact absurd (by
          simp [dfu_step, dfu_getstatus_handler, h, DFU_STATE_DFU_DNLOAD_SYNC,
            DFU_STATE_DFU_DNBUSY, DFU_STATE_DFU_MANIFEST_SYNC,
            DFU_STATE_DFU_ERROR]) hne
    | clrstatus => exact Or.inl rfl
    | getstate => exact absurd h hne
    | abort => exact Or.inr rfl
    | detach => exact absurd h hne
    | process env =>
        exact absurd (by
          simp [dfu_step, usb_dfu_process, h, DFU_STATE_DFU_DNBUSY,
            DFU_STATE_DFU_ERROR]) hne

/-- Witness for C3 (amended), at a concrete ERROR context. -/
theorem dfu_error_exit_witness :
    (dfu_step DfuReq.clrstatus dfu_error_ctx).state = DFU_STATE_DFU_IDLE :=
  (dfu_error_exit_requires_clrstatus_or_abort dfu_error_ctx (by decide)).1

/-- Claim C9: a DFUSe set-address command whose little-endian address lies
outside `[APP_BASE, APP_BASE + APP_MAX_SIZE)` makes the worker set status
`errADDRESS` and state ERROR without touching `current_address` — but
`target_address` has already been overwritten with the rejected address
before validation, so the failed command is not atomic on the context. -/
theorem dfuse_set_address_rejected_not_atomic
    (c : DfuCtx) (env : FlashEnv) (a0 a1 a2 a3 : Nat)
    (hs : c.state = DFU_STATE_DFU_DNBUSY)
    (hbn : c.block_num = 0xFFFF)
    (hbuf : c.buffer = [0x21, a0, a1, a2, a3])
    (hlen : c.buffer_len = 5)
    (haddr : dfuse_le32 c.buffer < APP_BASE ∨
      APP_BASE + APP_MAX_SIZE ≤ dfuse_le32 c.buffer) :
    (usb_dfu_process env c).status = DFU_STATUS_ERR_ADDRESS ∧
    (usb_dfu_process env c).state = DFU_STATE_DFU_ERROR ∧
    (usb_dfu_process env c).current_address = c.current_address ∧
    (usb_dfu_process env c).target_address = dfuse_le32 c.buffer := by
  rw [hbuf] at haddr
  refine ⟨?_, ?_, ?_, ?_⟩ <;>
    simp [usb_dfu_process, hs, hbn, hbuf, hlen, haddr, DFUSE_CMD_SET_ADDRESS]

/-- Witness for C9: the rejected address `0x08002000` lands in
`target_address` even though the command failed. -/
theorem dfuse_set_address_rejected_not_atomic_witness :
    (usb_dfu_process ⟨true, true, true, true⟩ dfu_c9_witness_ctx).status
      = DFU_STATUS_ERR_ADDRESS ∧
    (usb_dfu_process ⟨true, true, true, true⟩ dfu_c9_witness_ctx).state
      = DFU_STATE_DFU_ERROR ∧
    (usb_dfu_process ⟨true, true, true, true⟩ dfu_c9_witness_ctx).current_address
      = dfu_c9_witness_ctx.current_address ∧
    (usb_dfu_process ⟨true, true, true, true⟩ dfu_c9_witness_ctx).target_address
      = dfuse_le32 dfu_c9_witness_ctx.buffer :=
  dfuse_set_address_rejected_not_atomic dfu_c9_witness_ctx ⟨true, true, true, true⟩
    0x00 0x20 0x00 0x08 (by decide) (by decide) (by decide) (by decide) (by decide)

/-- Claim C6: GETSTATUS in DNLOAD_SYNC sets `poll_timeout` to 2000 for a
DFUSe special command (`block_num = 0xFFFF`) and 10 otherwise and moves to
DNBUSY; in DNBUSY it changes the context only when `buffer_len = 0` (to
DNLOAD_IDLE on OK status, else to ERROR); and it always replies with the
6-byte block `{status, poll_timeout low/mid/high, state, 0}` built from the
post-transition context. -/
theorem dfu_getstatus_spec (c : DfuCtx) :
    (c.state = DFU_STATE_DFU_DNLOAD_SYNC →
      (dfu_getstatus_handler c).1.poll_timeout =
        (if c.block_num = 0xFFFF then 2000 else 10) ∧
      (dfu_getstatus_handler c).1.state = DFU_STATE_DFU_DNBUSY) ∧
    (c.state = DFU_STATE_DFU_DNBUSY →
      (c.buffer_len = 0 →
        (dfu_getstatus_handler c).1.state =
          (if c.status = DFU_STATUS_OK then DFU_STATE_DFU_DNLOAD_IDLE
           else DFU_STATE_DFU_ERROR)) ∧
      (c.buffer_len ≠ 0 → (dfu_getstatus_handler c).1 = c)) ∧
    (dfu_getstatus_handler c).2 =
      [(dfu_getstatus_handler c).1.status % 2 ^ 8,
       (dfu_getstatus_handler c).1.poll_timeout &&& 0xFF,
       ((dfu_getstatus_handler c).1.poll_timeout >>> 8) &&& 0xFF,
       ((dfu_getstatus_handler c).1.poll_timeout >>> 16) &&& 0xFF,
       (dfu_getstatus_handler c).1.state % 2 ^ 8, 0] := by
  refine ⟨?_, ?_, rfl⟩
  · intro hs
    constructor <;>
      simp [dfu_getstatus_handler, hs]
  · intro hs
    constructor
    · intro hb
      by_cases hok : c.status = DFU_STATUS_OK <;>
        simp [dfu_getstatus_handler, hs, hb, hok, DFU_STATE_DFU_DNLOAD_SYNC,
          DFU_STATE_DFU_DNBUSY]
    · intro hb
      simp [dfu_getstatus_handler, hs, hb, DFU_STATE_DFU_DNLOAD_SYNC,
        DFU_STATE_DFU_DNBUSY]

/-- Witness for C6 in the DNLOAD_SYNC case. -/
theorem dfu_getstatus_spec_witness :
    (dfu_getstatus_handler dfu_dnload_sync_ctx).1.poll_timeout =
      (if dfu_dnload_sync_ctx.block_num = 0xFFFF then 2000 else 10) ∧
    (dfu_getstatus_handler dfu_dnload_sync_ctx).1.state = DFU_STATE_DFU_DNBUSY :=
  (dfu_getstatus_spec dfu_dnload_sync_ctx).1 (by decide)

/-- Masking with `0xFF` is reduction modulo `2 ^ 8`. -/
theorem land_255_eq_mod (x : Nat) : x &&& 0xFF = x % 2 ^ 8 := by
  have h : (0xFF : Nat) = 2 ^ 8 - 1 := rfl
  rw [h, Nat.and_pow_two_sub_one_eq_mod]

/-- Low byte of a little-endian 16-bit load. -/
theorem read16_byte0 (m : Mem) (a : Nat) (h : m a < 256) :
    read16 m a &&& 0xFF = m a := by
  rw [land_255_eq_mod]
  unfold read16
  omega

/-- High byte of a little-endian 16-bit load. -/
theorem read16_byte1 (m : Mem) (a : Nat) (h0 : m a < 256) (h1 : m (a + 1) < 256) :
    (read16 m a >>> 8) &&& 0xFF = m (a + 1) := by
  rw [Nat.shiftRight_eq_div_pow, land_255_eq_mod]
  unfold read16
  omega

/-- Claim C7, counterexample: with a header that is *not* valid (its size
field is 0, so `bootloader_validate_app` returns false) but has matching
magic, `usb_dfu_init` still patches the descriptor with the header VID/PID
`0x1234`/`0x5678` instead of the claimed defaults `0x0483`/`0xDF11`:
`get_usb_vid_pid` checks only the magic word, not header validity. -/
theorem usb_vid_pid_counterexample :
    bootloader_validate_app c7_mem = false ∧
    ((usb_dfu_init_descriptor c7_mem).drop 8).take 4 = [0x34, 0x12, 0x78, 0x56] ∧
    [0x34, 0x12, 0x78, 0x56] ≠
      [USB_DEFAULT_VID &&& 0xFF, (USB_DEFAULT_VID >>> 8) &&& 0xFF,
       USB_DEFAULT_PID &&& 0xFF, (USB_DEFAULT_PID >>> 8) &&& 0xFF] := by decide

/-- Claim C7 (amended): at `usb_dfu_init` time the descriptor bytes at
offsets 8–11 are set, little-endian, to the VID/PID from the application
header whenever the header *magic* equals `0xDEADBEEF` (regardless of the
size and CRC checks of full validation), and to the compile-time defaults
VID `0x0483` / PID `0xDF11` otherwise. -/
theorem usb_vid_pid_patch_spec (m : Mem) (hm : ∀ a, m a < 256) :
    (read32 m APP_BASE = 0xDEADBEEF →
      ((usb_dfu_init_descriptor m).drop 8).take 4 =
        [m (APP_BASE + 16), m (APP_BASE + 17), m (APP_BASE + 18), m (APP_BASE + 19)]) ∧
    (read32 m APP_BASE ≠ 0xDEADBEEF →
      ((usb_dfu_init_descriptor m).drop 8).take 4 = [0x83, 0x04, 0x11, 0xDF]) := by
  constructor
  · intro hmag
    have hp : get_usb_vid_pid m = (read16 m (APP_BASE + 16), read16 m (APP_BASE + 18)) := by
      unfold get_usb_vid_pid APP_HEADER_MAGIC
      rw [if_pos hmag]
    show [(get_usb_vid_pid m).1 &&& 0xFF, ((get_usb_vid_pid m).1 >>> 8) &&& 0xFF,
          (get_usb_vid_pid m).2 &&& 0xFF, ((get_usb_vid_pid m).2 >>> 8) &&& 0xFF] =
         [m (APP_BASE + 16), m (APP_BASE + 17), m (APP_BASE + 18), m (APP_BASE + 19)]
    rw [hp]
    rw [show ((read16 m (APP_BASE + 16), read16 m (APP_BASE + 18)).1 : Nat)
          = read16 m (APP_BASE + 16) from rfl]
    rw [show ((read16 m (APP_BASE + 16), read16 m (APP_BASE + 18)).2 : Nat)
          = read16 m (APP_BASE + 18) from rfl]
    rw [read16_byte0 m (APP_BASE + 16) (hm _), read16_byte1 m (APP_BASE + 16) (hm _) (hm _),
        read16_byte0 m (APP_BASE + 18) (hm _), read16_byte1 m (APP_BASE + 18) (hm _) (hm _)]
  · intro hmag
    have hp : get_usb_vid_pid m = (USB_DEFAULT_VID, USB_DEFAULT_PID) := by
      unfold get_usb_vid_pid APP_HEADER_MAGIC
      rw [if_neg hmag]
    show [(get_usb_vid_pid m).1 &&& 0xFF, ((get_usb_vid_pid m).1 >>> 8) &&& 0xFF,
          (get_usb_vid_pid m).2 &&& 0xFF, ((get_usb_vid_pid m).2 >>> 8) &&& 0xFF] =
         [0x83, 0x04, 0x11, 0xDF]
    rw [hp]
    decide

/-- Witness for C7 (amended) on the concrete image `c7_mem`. -/
theorem usb_vid_pid_patch_spec_witness :
    ((usb_dfu_init_descriptor c7_mem).drop 8).take 4 =
      [c7_mem (APP_BASE + 16), c7_mem (APP_BASE + 17),
       c7_mem (APP_BASE + 18), c7_mem (APP_BASE + 19)] :=
  (usb_vid_pid_patch_spec c7_mem
      (fun a => by unfold c7_mem; split_ifs <;> norm_num)).1 (by decide)
